import Mathlib

/-!
Verification of the bytecode signature-matching engine and ERC
classification/extraction pipeline (the Analyzer) of this repository, and of
the QueryTokenValidity component handler.

The Analyzer itself (class ByteCodeAnalyzer: isErc, getErcTokenInfo,
analyzeErcContract, categorizeERCContracts) is exercised by the Jest suite
present in the repository, and its behaviour is fixed by the specification;
the definitions below model it from the specification, as stated in each doc
comment, and the model is checked against the expectations of the Jest suite
on small representative bytecode blobs.  The QueryTokenValidity handler is
translated directly from its source file.
-/

set_option maxRecDepth 400000

/-- Modelled from the spec: the role a byte pattern is tagged with in the
Pattern Registry, a 4-byte function selector or a 32-byte event-topic hash. -/
inductive PatternRole where
  | functionSelector
  | eventTopic
deriving DecidableEq

/-- Modelled from the spec: a Pattern of the Pattern Registry, an exact hex
byte sequence to search for, tagged with its role. -/
structure Pattern where
  role : PatternRole
  hex : String
deriving DecidableEq

/-- Standard identifiers supported by the Analyzer (enum ERCID of the Jest
suite). -/
inductive ERCID where
  | ERC20
  | ERC721
deriving DecidableEq

/-- Modelled from the spec: the ERC20 Pattern Set, the selectors and event
topics that must all be present (transfer, transferFrom, balanceOf,
totalSupply, approve, allowance; Transfer and Approval topics), as listed in
the specification's concrete scenario and its baseline regular expression. -/
def ERC20_PATTERNS : List Pattern :=
  [⟨PatternRole.functionSelector, "a9059cbb"⟩,
   ⟨PatternRole.functionSelector, "23b872dd"⟩,
   ⟨PatternRole.functionSelector, "70a08231"⟩,
   ⟨PatternRole.functionSelector, "18160ddd"⟩,
   ⟨PatternRole.functionSelector, "095ea7b3"⟩,
   ⟨PatternRole.functionSelector, "dd62ed3e"⟩,
   ⟨PatternRole.eventTopic,
     "ddf252ad1be2c89b69c2b068fc378daa952ba7f163c4a11628f55a4df523b3ef"⟩,
   ⟨PatternRole.eventTopic,
     "8c5be1e5ebec7d5bd14f71427d1e84f3dd0314c0f7b2291e5b200ac8c7c3b925"⟩]

/-- Modelled from the spec: the ERC721 Pattern Set (balanceOf, ownerOf,
approve, getApproved, setApprovalForAll, isApprovedForAll, transferFrom, the
two safeTransferFrom overloads; Transfer, Approval and ApprovalForAll
topics).  The specification does not enumerate this set; it is reconstructed
from the standard ERC721 interface and validated against the Jest suite's
legitimate ERC721 bytecode (which contains exactly these selectors and
topics) and its legitimate ERC20 bytecode (which lacks ownerOf and the other
ERC721-only members). -/
def ERC721_PATTERNS : List Pattern :=
  [⟨PatternRole.functionSelector, "70a08231"⟩,
   ⟨PatternRole.functionSelector, "6352211e"⟩,
   ⟨PatternRole.functionSelector, "095ea7b3"⟩,
   ⟨PatternRole.functionSelector, "081812fc"⟩,
   ⟨PatternRole.functionSelector, "a22cb465"⟩,
   ⟨PatternRole.functionSelector, "e985e9c5"⟩,
   ⟨PatternRole.functionSelector, "23b872dd"⟩,
   ⟨PatternRole.functionSelector, "42842e0e"⟩,
   ⟨PatternRole.functionSelector, "b88d4fde"⟩,
   ⟨PatternRole.eventTopic,
     "ddf252ad1be2c89b69c2b068fc378daa952ba7f163c4a11628f55a4df523b3ef"⟩,
   ⟨PatternRole.eventTopic,
     "8c5be1e5ebec7d5bd14f71427d1e84f3dd0314c0f7b2291e5b200ac8c7c3b925"⟩,
   ⟨PatternRole.eventTopic,
     "17307eab39ab6107e8899845ad3d59bd9653f200f220920489ca2b5937696c31"⟩]

/-- Modelled from the spec: the Pattern Set mapping, from a standard
identifier to the ordered set of Patterns that must all be present. -/
def requiredPatterns : ERCID → List Pattern
  | ERCID.ERC20 => ERC20_PATTERNS
  | ERCID.ERC721 => ERC721_PATTERNS

/-- Modelled from the spec: the union of all Patterns across all registered
standards, over which the Matcher automaton is built once. -/
def registeredPatterns : List Pattern :=
  (requiredPatterns ERCID.ERC20 ++ requiredPatterns ERCID.ERC721).dedup

/-- Modelled from the spec: the Matcher primitive.  The real Analyzer scans
the blob once with an Aho-Corasick automaton; the automaton is modelled
extensionally by its reported answer for one pattern, namely whether the
pattern occurs as a substring of the scanned character sequence. -/
def hexOccurs (p : List Char) : List Char → Bool
  | [] => p.isPrefixOf []
  | c :: rest => p.isPrefixOf (c :: rest) || hexOccurs p rest

/-- Modelled from the spec: the Match Result for one bytecode blob, the
subset of all registered Patterns that occur in the blob at least once. -/
def matchResult (bytecode : String) : List Pattern :=
  registeredPatterns.filter (fun p => hexOccurs p.hex.data bytecode.data)

/-- Modelled from the spec: the Standard Classifier isErc of ByteCodeAnalyzer.
It returns true iff every Pattern required by the standard's Pattern Set is
present in the Match Result of the scanned bytecode (AND semantics). -/
def isErc (ercId : ERCID) (bytecode : String) : Bool :=
  (requiredPatterns ercId).all (fun p => decide (p ∈ matchResult bytecode))

/-- Concrete bytecode blob containing exactly the ERC20 required patterns,
in the Pattern Set's order, and no other registered pattern. -/
def erc20PatternOnlyBlob : String :=
  "0xa9059cbb23b872dd70a0823118160ddd095ea7b3dd62ed3eddf252ad1be2c89b69c2b068fc378daa952ba7f163c4a11628f55a4df523b3ef8c5be1e5ebec7d5bd14f71427d1e84f3dd0314c0f7b2291e5b200ac8c7c3b925"

/-- Concrete bytecode blob containing exactly the ERC721 required patterns,
in the Pattern Set's order, and no other registered pattern. -/
def erc721PatternOnlyBlob : String :=
  "0x70a082316352211e095ea7b3081812fca22cb465e985e9c523b872dd42842e0eb88d4fdeddf252ad1be2c89b69c2b068fc378daa952ba7f163c4a11628f55a4df523b3ef8c5be1e5ebec7d5bd14f71427d1e84f3dd0314c0f7b2291e5b200ac8c7c3b92517307eab39ab6107e8899845ad3d59bd9653f200f220920489ca2b5937696c31"

/-- Blob obtained from erc20PatternOnlyBlob by deleting the bytes of the
Approval event topic, its final required pattern (no other occurrence of
that pattern remains). -/
def erc20BlobMissingApprovalTopic : String :=
  "0xa9059cbb23b872dd70a0823118160ddd095ea7b3dd62ed3eddf252ad1be2c89b69c2b068fc378daa952ba7f163c4a11628f55a4df523b3ef"

/-- Modelled from the spec: a candidate contract record handed to the
Categorization Pipeline (MirrorNodeContract of the Jest suite). -/
structure MirrorNodeContract where
  contract_id : String
  evm_address : String

/-- Modelled from the spec: the full contract object (including bytecode)
returned by the scanner collaborator's fetchContractObject
(MirrorNodeContractResponse of the Jest suite). -/
structure MirrorNodeContractResponse where
  contract_id : String
  evm_address : String
  bytecode : String

/-- Modelled from the spec: the outcome of one fetchContractObject call;
the collaborator returns the object, returns null for not found, or raises
for a transport failure. -/
inductive FetchResult where
  | found (obj : MirrorNodeContractResponse)
  | notFound
  | transportError

/-- Whether a fetch outcome carries a contract object. -/
def FetchResult.isFound : FetchResult → Bool
  | FetchResult.found _ => true
  | FetchResult.notFound => false
  | FetchResult.transportError => false

/-- Modelled from the spec: a Token Metadata Record (ErcTokenInfoObject of
the Jest suite); a metadata field is none when its call failed, returned no
data, or was undecodable. -/
structure ErcTokenInfoObject where
  contractId : String
  address : String
  name : Option String
  symbol : Option String
  decimals : Option String
  totalSupply : Option String
deriving DecidableEq

/-- Modelled from the spec: the metadata fields and selector sighashes of the
ERC20 standard (name, symbol, decimals, totalSupply), the
ERC20_TOKEN_INFO_SELECTORS configuration constant. -/
def ERC20_TOKEN_INFO_SELECTORS : List (String × String) :=
  [("name", "0x06fdde03"), ("symbol", "0x95d89b41"),
   ("decimals", "0x313ce567"), ("totalSupply", "0x18160ddd")]

/-- Modelled from the spec: the metadata fields and selector sighashes of the
ERC721 standard (name, symbol), the ERC721_TOKEN_INFO_SELECTORS
configuration constant. -/
def ERC721_TOKEN_INFO_SELECTORS : List (String × String) :=
  [("name", "0x06fdde03"), ("symbol", "0x95d89b41")]

/-- Result of issuing one metadata field's read-only call through the
call-request collaborator: the collaborator is a function from the contract
address and the selector-encoded call data to the decoded value, none when
the call failed, returned no data, or the returned bytes were undecodable. -/
def fieldCall (callService : String → String → Option String)
    (selectors : List (String × String)) (addr fieldName : String) :
    Option String :=
  match selectors.find? (fun s => s.fst == fieldName) with
  | none => none
  | some s => callService addr s.snd

/-- Modelled from the spec: getErcTokenInfo of ByteCodeAnalyzer.  One
read-only call per metadata field of the standard's selector list, each
decoded independently; the record carries contractId and address verbatim
from the input contract record. -/
def getErcTokenInfo (callService : String → String → Option String)
    (contract : MirrorNodeContractResponse)
    (selectors : List (String × String)) : ErcTokenInfoObject :=
  { contractId := contract.contract_id
    address := contract.evm_address
    name := fieldCall callService selectors contract.evm_address "name"
    symbol := fieldCall callService selectors contract.evm_address "symbol"
    decimals := fieldCall callService selectors contract.evm_address "decimals"
    totalSupply :=
      fieldCall callService selectors contract.evm_address "totalSupply" }

/-- Modelled from the spec: analyzeErcContract of ByteCodeAnalyzer.  When the
bytecode classifies as the standard, the whole extraction step is attempted;
a step that raises (Except.error) is caught and reported as none, never as a
partial record.  The extraction outcome is passed as a value since the
collaborator's effects are modelled as data. -/
def analyzeErcContract (ercId : ERCID) (contract : MirrorNodeContractResponse)
    (extraction : Except Unit ErcTokenInfoObject) : Option ErcTokenInfoObject :=
  if isErc ercId contract.bytecode then
    match extraction with
    | Except.ok info => some info
    | Except.error _ => none
  else none

/-- The pair of result collections produced by one pipeline run. -/
structure CategorizedContracts where
  erc20Contracts : List ErcTokenInfoObject
  erc721Contracts : List ErcTokenInfoObject
deriving DecidableEq

/-- Modelled from the spec: categorizeERCContracts of ByteCodeAnalyzer.  Per
contract in input order: fetch the contract object (a null or raising fetch
skips the contract), then independently classify and extract for ERC20 and
for ERC721, appending each non-null record to its collection. -/
def categorizeERCContracts (fetch : MirrorNodeContract → FetchResult)
    (extract : ERCID → MirrorNodeContractResponse →
      Except Unit ErcTokenInfoObject) :
    List MirrorNodeContract → CategorizedContracts
  | [] => { erc20Contracts := [], erc721Contracts := [] }
  | c :: rest =>
    let restResult := categorizeERCContracts fetch extract rest
    match fetch c with
    | FetchResult.found obj =>
      { erc20Contracts :=
          (analyzeErcContract ERCID.ERC20 obj
            (extract ERCID.ERC20 obj)).toList ++ restResult.erc20Contracts
        erc721Contracts :=
          (analyzeErcContract ERCID.ERC721 obj
            (extract ERCID.ERC721 obj)).toList ++ restResult.erc721Contracts }
    | FetchResult.notFound => restResult
    | FetchResult.transportError => restResult

/-- Result object of the queryTokenValidity API call destructured by the
QueryTokenValidity handler.  IsToken is modelled as an optional natural
number: the numeric flag decoded from the contract call, absent (undefined)
when the call failed. -/
structure QueryTokenValidityResult where
  IsToken : Option Nat
  transactionHash : Option String
  err : Option String

/-- JavaScript truthiness of the optional numeric IsToken value: undefined
and 0 are falsy, every other number is truthy. -/
def jsTruthyNat : Option Nat → Bool
  | none => false
  | some n => n != 0

/-- JavaScript test Number(IsToken) === 1 on the optional numeric IsToken
value: Number(undefined) is NaN, which is not 1. -/
def jsNumberEqOne : Option Nat → Bool
  | none => false
  | some n => n == 1

/-- Transaction-result row appended by the QueryTokenValidity handler
(relevant fields of the TransactionResult type). -/
structure TransactionResult where
  status : String
  isToken : Bool
  txHash : Option String
  tokenAddress : String
deriving DecidableEq

/-- Outcome of one run of the handler: an early return on an invalid address,
a routing of the call through handleAPIErrors, or the new transaction-result
list after appending a success row. -/
inductive HandlerOutcome where
  | invalidParams
  | apiError (err : Option String) (transactionHash : Option String)
      (tokenAddress : String)
  | success (newResults : List TransactionResult)
deriving DecidableEq

/-- Translation of handleQueryTokenValidity from the QueryTokenValidity
component: sanitize the address, call queryTokenValidity, route an error or
a falsy IsToken through handleAPIErrors, otherwise append a success row
whose isToken flag is the test Number(IsToken) === 1. -/
def handleQueryTokenValidity (isValidAddress : Bool)
    (res : QueryTokenValidityResult) (tokenAddress : String)
    (prev : List TransactionResult) : HandlerOutcome :=
  if !isValidAddress then HandlerOutcome.invalidParams
  else if res.err.isSome || !(jsTruthyNat res.IsToken) then
    HandlerOutcome.apiError res.err res.transactionHash tokenAddress
  else
    HandlerOutcome.success (prev ++
      [{ status := "success"
         isToken := jsNumberEqOne res.IsToken
         txHash := res.transactionHash
         tokenAddress := tokenAddress }])

theorem isPrefixOf_eq_true_iff (p s : List Char) :
    p.isPrefixOf s = true ↔ ∃ t, p ++ t = s := by
  induction p generalizing s with
  | nil =>
    simp [List.isPrefixOf]
  | cons a as ih =>
    cases s with
    | nil =>
      simp [List.isPrefixOf]
    | cons b bs =>
      simp only [List.isPrefixOf, Bool.and_eq_true, beq_iff_eq, ih,
        List.cons_append, List.cons.injEq]
      constructor
      · rintro ⟨rfl, t, rfl⟩
        exact ⟨t, rfl, rfl⟩
      · rintro ⟨t, rfl, rfl⟩
        exact ⟨rfl, t, rfl⟩

theorem hexOccurs_eq_true_iff (p s : List Char) :
    hexOccurs p s = true ↔ ∃ l r, s = l ++ p ++ r := by
  induction s with
  | nil =>
    simp only [hexOccurs, isPrefixOf_eq_true_iff]
    constructor
    · rintro ⟨t, ht⟩
      rcases List.append_eq_nil.mp ht with ⟨rfl, rfl⟩
      exact ⟨[], [], rfl⟩
    · rintro ⟨l, r, h⟩
      have h1 := List.append_eq_nil.mp h.symm
      have h2 := List.append_eq_nil.mp h1.1
      exact ⟨[], by simp [h2.2]⟩
  | cons c cs ih =>
    simp only [hexOccurs, Bool.or_eq_true, isPrefixOf_eq_true_iff, ih]
    constructor
    · rintro (⟨t, ht⟩ | ⟨l, r, hlr⟩)
      · exact ⟨[], t, by simp [ht]⟩
      · exact ⟨c :: l, r, by simp [hlr]⟩
    · rintro ⟨l, r, hlr⟩
      cases l with
      | nil =>
        exact Or.inl ⟨r, by simpa using hlr.symm⟩
      | cons a l =>
        rcases List.cons.injEq a (l ++ p ++ r) c cs ▸ hlr.symm with ⟨-, h⟩
        exact Or.inr ⟨l, r, by simp [h.symm]⟩

theorem mem_registeredPatterns_of_mem_required {e : ERCID} {p : Pattern}
    (h : p ∈ requiredPatterns e) : p ∈ registeredPatterns := by
  have : p ∈ requiredPatterns ERCID.ERC20 ++ requiredPatterns ERCID.ERC721 := by
    cases e
    · exact List.mem_append_left _ h
    · exact List.mem_append_right _ h
  simpa [registeredPatterns, List.mem_dedup] using this

theorem mem_matchResult_iff (p : Pattern) (b : String) :
    p ∈ matchResult b ↔
      p ∈ registeredPatterns ∧ hexOccurs p.hex.data b.data = true := by
  simp [matchResult, List.mem_filter]

theorem isErc_eq_true_iff (e : ERCID) (b : String) :
    isErc e b = true ↔
      ∀ p ∈ requiredPatterns e, ∃ l r, b.data = l ++ p.hex.data ++ r := by
  simp only [isErc, List.all_eq_true, decide_eq_true_eq, mem_matchResult_iff]
  constructor
  · intro h p hp
    exact (hexOccurs_eq_true_iff _ _).mp (h p hp).2
  · intro h p hp
    exact ⟨mem_registeredPatterns_of_mem_required hp,
      (hexOccurs_eq_true_iff _ _).mpr (h p hp)⟩

theorem isErc_eq_true_iff_hexOccurs (e : ERCID) (b : String) :
    isErc e b = true ↔
      ∀ p ∈ requiredPatterns e, hexOccurs p.hex.data b.data = true := by
  rw [isErc_eq_true_iff]
  constructor
  · intro h p hp
    exact (hexOccurs_eq_true_iff _ _).mpr (h p hp)
  · intro h p hp
    exact (hexOccurs_eq_true_iff _ _).mp (h p hp)

theorem isErc_eq_false_of_missing {e : ERCID} {b : String} {p : Pattern}
    (hp : p ∈ requiredPatterns e)
    (habsent : hexOccurs p.hex.data b.data = false) : isErc e b = false := by
  by_contra h
  have htrue : isErc e b = true := by
    cases hb : isErc e b
    · exact absurd hb h
    · rfl
  have := (isErc_eq_true_iff_hexOccurs e b).mp htrue p hp
  rw [habsent] at this
  exact Bool.false_ne_true this

theorem length_le_of_decomposition {p s l r : List Char}
    (h : s = l ++ p ++ r) : p.length ≤ s.length := by
  subst h
  simp only [List.length_append]
  omega

/-- C1: for every standard identifier and every bytecode blob, isErc returns
true iff every pattern of the standard's required Pattern Set occurs as a
substring of the bytecode, and a blob missing any single required pattern is
classified false even when every other pattern is present. -/
theorem isErc_true_iff_every_required_pattern_occurs :
    (∀ (e : ERCID) (b : String),
      isErc e b = true ↔
        ∀ p ∈ requiredPatterns e, ∃ l r, b.data = l ++ p.hex.data ++ r) ∧
    (∀ (e : ERCID) (b : String) (p : Pattern), p ∈ requiredPatterns e →
      (∀ l r, b.data ≠ l ++ p.hex.data ++ r) → isErc e b = false) := by
  refine ⟨fun e b => isErc_eq_true_iff e b, fun e b p hp habsent => ?_⟩
  refine isErc_eq_false_of_missing hp ?_
  cases hocc : hexOccurs p.hex.data b.data
  · rfl
  · rcases (hexOccurs_eq_true_iff _ _).mp hocc with ⟨l, r, hlr⟩
    exact absurd hlr (habsent l r)

/-- C2: a blob in which exactly the ERC721-required patterns occur
classifies false for ERC20 and true for ERC721 and vice versa; a blob
containing every ERC20-required selector and event topic while lacking some
ERC721-required pattern (the shape of the canonical OpenZeppelin-style ERC20
runtime bytecode) yields isErc ERC20 = true and isErc ERC721 = false; both
facts are instantiated on concrete blobs made of exactly the respective
required patterns. -/
theorem isErc_disjoint_classification :
    (∀ b : String,
      (∀ p ∈ registeredPatterns,
        (hexOccurs p.hex.data b.data = true ↔
          p ∈ requiredPatterns ERCID.ERC721)) →
      isErc ERCID.ERC721 b = true ∧ isErc ERCID.ERC20 b = false) ∧
    (∀ b : String,
      (∀ p ∈ registeredPatterns,
        (hexOccurs p.hex.data b.data = true ↔
          p ∈ requiredPatterns ERCID.ERC20)) →
      isErc ERCID.ERC20 b = true ∧ isErc ERCID.ERC721 b = false) ∧
    (∀ b : String,
      (∀ p ∈ requiredPatterns ERCID.ERC20,
        hexOccurs p.hex.data b.data = true) →
      (∃ p ∈ requiredPatterns ERCID.ERC721,
        hexOccurs p.hex.data b.data = false) →
      isErc ERCID.ERC20 b = true ∧ isErc ERCID.ERC721 b = false) ∧
    (isErc ERCID.ERC721 erc721PatternOnlyBlob = true ∧
      isErc ERCID.ERC20 erc721PatternOnlyBlob = false) ∧
    (isErc ERCID.ERC20 erc20PatternOnlyBlob = true ∧
      isErc ERCID.ERC721 erc20PatternOnlyBlob = false) := by
  refine ⟨fun b hb => ⟨?_, ?_⟩, fun b hb => ⟨?_, ?_⟩, fun b hall hmiss => ⟨?_, ?_⟩,
    ⟨by decide, by decide⟩, ⟨by decide, by decide⟩⟩
  · refine (isErc_eq_true_iff_hexOccurs _ _).mpr fun p hp => ?_
    exact (hb p (mem_registeredPatterns_of_mem_required hp)).mpr hp
  · have hmem : (⟨PatternRole.functionSelector, "dd62ed3e"⟩ : Pattern) ∈
        requiredPatterns ERCID.ERC20 := by decide
    refine isErc_eq_false_of_missing hmem ?_
    cases hocc : hexOccurs ("dd62ed3e" : String).data b.data
    · rfl
    · have : (⟨PatternRole.functionSelector, "dd62ed3e"⟩ : Pattern) ∈
          requiredPatterns ERCID.ERC721 :=
        (hb _ (mem_registeredPatterns_of_mem_required hmem)).mp hocc
      exact absurd this (by decide)
  · refine (isErc_eq_true_iff_hexOccurs _ _).mpr fun p hp => ?_
    exact (hb p (mem_registeredPatterns_of_mem_required hp)).mpr hp
  · have hmem : (⟨PatternRole.functionSelector, "6352211e"⟩ : Pattern) ∈
        requiredPatterns ERCID.ERC721 := by decide
    refine isErc_eq_false_of_missing hmem ?_
    cases hocc : hexOccurs ("6352211e" : String).data b.data
    · rfl
    · have : (⟨PatternRole.functionSelector, "6352211e"⟩ : Pattern) ∈
          requiredPatterns ERCID.ERC20 :=
        (hb _ (mem_registeredPatterns_of_mem_required hmem)).mp hocc
      exact absurd this (by decide)
  · exact (isErc_eq_true_iff_hexOccurs _ _).mpr hall
  · rcases hmiss with ⟨p, hp, habsent⟩
    exact isErc_eq_false_of_missing hp habsent

theorem data_of_string_append (s t : String) : (s ++ t).data = s.data ++ t.data :=
  rfl

/-- C6: AND semantics of isErc as an algebraic property.  A blob from which
the bytes of any single required pattern were deleted, leaving no occurrence
of that pattern, classifies false; a blob extended by appended bytes, or more
generally any rewrite preserving every required pattern occurrence, stays
classified true; instantiated concretely by deleting the trailing Approval
topic from the ERC20-pattern blob. -/
theorem isErc_and_semantics_monotonicity :
    (∀ (e : ERCID) (b : String) (p : Pattern), p ∈ requiredPatterns e →
      (∀ l r, b.data ≠ l ++ p.hex.data ++ r) → isErc e b = false) ∧
    (∀ (e : ERCID) (b x : String), isErc e b = true →
      isErc e (b ++ x) = true) ∧
    (∀ (e : ERCID) (b bNew : String), isErc e b = true →
      (∀ p ∈ requiredPatterns e,
        (∃ l r, b.data = l ++ p.hex.data ++ r) →
        ∃ l r, bNew.data = l ++ p.hex.data ++ r) →
      isErc e bNew = true) ∧
    (erc20BlobMissingApprovalTopic ++
        "8c5be1e5ebec7d5bd14f71427d1e84f3dd0314c0f7b2291e5b200ac8c7c3b925" =
        erc20PatternOnlyBlob ∧
      isErc ERCID.ERC20 erc20PatternOnlyBlob = true ∧
      isErc ERCID.ERC20 erc20BlobMissingApprovalTopic = false) := by
  have hmono : ∀ (e : ERCID) (b bNew : String), isErc e b = true →
      (∀ p ∈ requiredPatterns e,
        (∃ l r, b.data = l ++ p.hex.data ++ r) →
        ∃ l r, bNew.data = l ++ p.hex.data ++ r) →
      isErc e bNew = true := by
    intro e b bNew hb hpres
    refine (isErc_eq_true_iff e bNew).mpr fun p hp => ?_
    exact hpres p hp ((isErc_eq_true_iff e b).mp hb p hp)
  refine ⟨fun e b p hp habsent => ?_, fun e b x hb => ?_, hmono,
    by decide, by decide, by decide⟩
  · refine isErc_eq_false_of_missing hp ?_
    cases hocc : hexOccurs p.hex.data b.data
    · rfl
    · rcases (hexOccurs_eq_true_iff _ _).mp hocc with ⟨l, r, hlr⟩
      exact absurd hlr (habsent l r)
  · refine hmono e b (b ++ x) hb fun p hp hocc => ?_
    rcases hocc with ⟨l, r, hlr⟩
    exact ⟨l, r ++ x.data, by
      rw [data_of_string_append, hlr]
      simp⟩

/-- C7: scanning an empty blob, or any blob shorter than every registered
pattern, yields an empty match result without error, and isErc is false (not
an exception) for every standard on such blobs. -/
theorem matchResult_empty_on_short_blob (b : String)
    (hshort : ∀ p ∈ registeredPatterns, b.data.length < p.hex.data.length) :
    matchResult b = [] ∧ ∀ e : ERCID, isErc e b = false := by
  have habsent : ∀ p ∈ registeredPatterns,
      hexOccurs p.hex.data b.data = false := by
    intro p hp
    cases hocc : hexOccurs p.hex.data b.data
    · rfl
    · rcases (hexOccurs_eq_true_iff _ _).mp hocc with ⟨l, r, hlr⟩
      have := length_le_of_decomposition hlr
      have := hshort p hp
      omega
  constructor
  · refine List.filter_eq_nil_iff.mpr fun p hp => ?_
    simp [habsent p hp]
  · intro e
    have hmem : (requiredPatterns e).head? ≠ none := by
      cases e
      · decide
      · decide
    rcases hhead : (requiredPatterns e).head? with - | p
    · exact absurd hhead hmem
    · have hp : p ∈ requiredPatterns e := List.mem_of_mem_head? hhead
      exact isErc_eq_false_of_missing hp
        (habsent p (mem_registeredPatterns_of_mem_required hp))

/-- Witness for C7 at the empty blob. -/
theorem matchResult_empty_on_short_blob_witness :
    matchResult "" = [] ∧ ∀ e : ERCID, isErc e "" = false :=
  matchResult_empty_on_short_blob "" (by decide)

/-- C8: isErc is a deterministic pure function of the standard identifier and
the bytecode: any two invocations on the same arguments yield the same
boolean (the embedding has no hidden state). -/
theorem isErc_deterministic (e : ERCID) (b : String) (r1 r2 : Bool)
    (h1 : r1 = isErc e b) (h2 : r2 = isErc e b) : r1 = r2 := by
  rw [h1, h2]

/-- Witness for C8: two invocations of isErc on the empty-prefix blob agree
on the value false. -/
theorem isErc_deterministic_witness : (false : Bool) = false :=
  isErc_deterministic ERCID.ERC20 "0x" false false (by decide) (by decide)

/-- C3: the categorization pipeline is total: for every input contract list
it returns the pair of (possibly empty) collections, its result equals the
result on the successfully fetched sublist (so a contract whose fetch yields
null or raises contributes to neither collection and surfaces no error), and
when every fetch fails both collections are empty. -/
theorem categorizeERCContracts_skips_failed_fetches :
    ∀ (fetch : MirrorNodeContract → FetchResult)
      (extract : ERCID → MirrorNodeContractResponse →
        Except Unit ErcTokenInfoObject)
      (contracts : List MirrorNodeContract),
      categorizeERCContracts fetch extract contracts =
        categorizeERCContracts fetch extract
          (contracts.filter (fun c => (fetch c).isFound)) ∧
      ((∀ c ∈ contracts, (fetch c).isFound = false) →
        categorizeERCContracts fetch extract contracts =
          { erc20Contracts := [], erc721Contracts := [] }) := by
  intro fetch extract contracts
  have hfilter : ∀ cs : List MirrorNodeContract,
      categorizeERCContracts fetch extract cs =
        categorizeERCContracts fetch extract
          (cs.filter (fun c => (fetch c).isFound)) := by
    intro cs
    induction cs with
    | nil => rfl
    | cons c rest ih =>
      cases hfc : fetch c with
      | found obj =>
        simp [categorizeERCContracts, List.filter_cons, hfc,
          FetchResult.isFound, ih]
      | notFound =>
        simp [categorizeERCContracts, List.filter_cons, hfc,
          FetchResult.isFound, ih]
      | transportError =>
        simp [categorizeERCContracts, List.filter_cons, hfc,
          FetchResult.isFound, ih]
  refine ⟨hfilter contracts, fun hall => ?_⟩
  rw [hfilter contracts]
  have : contracts.filter (fun c => (fetch c).isFound) = [] :=
    List.filter_eq_nil_iff.mpr fun c hc => by simp [hall c hc]
  rw [this]
  rfl

/-- C4: getErcTokenInfo decodes each metadata field's call independently:
every field of the returned record equals the outcome of its own call (so
exactly the failed or null calls yield null fields while the others are
populated), the fields outside the ERC721 selector list are null, and
contractId and address are copied verbatim from the input contract record. -/
theorem getErcTokenInfo_fields_independent
    (svc : String → String → Option String)
    (c : MirrorNodeContractResponse) :
    ((getErcTokenInfo svc c ERC20_TOKEN_INFO_SELECTORS).contractId =
        c.contract_id ∧
      (getErcTokenInfo svc c ERC20_TOKEN_INFO_SELECTORS).address =
        c.evm_address ∧
      (getErcTokenInfo svc c ERC20_TOKEN_INFO_SELECTORS).name =
        svc c.evm_address "0x06fdde03" ∧
      (getErcTokenInfo svc c ERC20_TOKEN_INFO_SELECTORS).symbol =
        svc c.evm_address "0x95d89b41" ∧
      (getErcTokenInfo svc c ERC20_TOKEN_INFO_SELECTORS).decimals =
        svc c.evm_address "0x313ce567" ∧
      (getErcTokenInfo svc c ERC20_TOKEN_INFO_SELECTORS).totalSupply =
        svc c.evm_address "0x18160ddd") ∧
    ((getErcTokenInfo svc c ERC721_TOKEN_INFO_SELECTORS).contractId =
        c.contract_id ∧
      (getErcTokenInfo svc c ERC721_TOKEN_INFO_SELECTORS).address =
        c.evm_address ∧
      (getErcTokenInfo svc c ERC721_TOKEN_INFO_SELECTORS).name =
        svc c.evm_address "0x06fdde03" ∧
      (getErcTokenInfo svc c ERC721_TOKEN_INFO_SELECTORS).symbol =
        svc c.evm_address "0x95d89b41" ∧
      (getErcTokenInfo svc c ERC721_TOKEN_INFO_SELECTORS).decimals = none ∧
      (getErcTokenInfo svc c ERC721_TOKEN_INFO_SELECTORS).totalSupply =
        none) :=
  ⟨⟨rfl, rfl, rfl, rfl, rfl, rfl⟩, ⟨rfl, rfl, rfl, rfl, rfl, rfl⟩⟩

/-- C5: a raising extraction step makes analyzeErcContract report null, never
a partial record; in the pipeline such a contract is excluded from the
affected standard's collection only, and each standard's collection is
unaffected by the other standard's extraction behaviour. -/
theorem analyzeErcContract_null_on_raising_extraction :
    (∀ (e : ERCID) (c : MirrorNodeContractResponse),
      analyzeErcContract e c (Except.error ()) = none) ∧
    (∀ (fetch : MirrorNodeContract → FetchResult)
      (extract : ERCID → MirrorNodeContractResponse →
        Except Unit ErcTokenInfoObject)
      (c : MirrorNodeContract) (contracts : List MirrorNodeContract)
      (obj : MirrorNodeContractResponse), fetch c = FetchResult.found obj →
      extract ERCID.ERC20 obj = Except.error () →
      (categorizeERCContracts fetch extract (c :: contracts)).erc20Contracts =
        (categorizeERCContracts fetch extract contracts).erc20Contracts) ∧
    (∀ (fetch : MirrorNodeContract → FetchResult)
      (extract : ERCID → MirrorNodeContractResponse →
        Except Unit ErcTokenInfoObject)
      (c : MirrorNodeContract) (contracts : List MirrorNodeContract)
      (obj : MirrorNodeContractResponse), fetch c = FetchResult.found obj →
      extract ERCID.ERC721 obj = Except.error () →
      (categorizeERCContracts fetch extract (c :: contracts)).erc721Contracts =
        (categorizeERCContracts fetch extract contracts).erc721Contracts) ∧
    (∀ (fetch : MirrorNodeContract → FetchResult)
      (extract extract2 : ERCID → MirrorNodeContractResponse →
        Except Unit ErcTokenInfoObject)
      (contracts : List MirrorNodeContract),
      (∀ obj, extract ERCID.ERC721 obj = extract2 ERCID.ERC721 obj) →
      (categorizeERCContracts fetch extract contracts).erc721Contracts =
        (categorizeERCContracts fetch extract2 contracts).erc721Contracts) ∧
    (∀ (fetch : MirrorNodeContract → FetchResult)
      (extract extract2 : ERCID → MirrorNodeContractResponse →
        Except Unit ErcTokenInfoObject)
      (contracts : List MirrorNodeContract),
      (∀ obj, extract ERCID.ERC20 obj = extract2 ERCID.ERC20 obj) →
      (categorizeERCContracts fetch extract contracts).erc20Contracts =
        (categorizeERCContracts fetch extract2 contracts).erc20Contracts) := by
  have hnone : ∀ (e : ERCID) (c : MirrorNodeContractResponse),
      analyzeErcContract e c (Except.error ()) = none := by
    intro e c
    cases h : isErc e c.bytecode <;> simp [analyzeErcContract, h]
  refine ⟨hnone, ?_, ?_, ?_, ?_⟩
  · intro fetch extract c contracts obj hfc hext
    simp [categorizeERCContracts, hfc, hext, hnone]
  · intro fetch extract c contracts obj hfc hext
    simp [categorizeERCContracts, hfc, hext, hnone]
  · intro fetch extract extract2 contracts hsame
    induction contracts with
    | nil => rfl
    | cons c rest ih =>
      cases hfc : fetch c <;>
        simp [categorizeERCContracts, hfc, ih, hsame]
  · intro fetch extract extract2 contracts hsame
    induction contracts with
    | nil => rfl
    | cons c rest ih =>
      cases hfc : fetch c <;>
        simp [categorizeERCContracts, hfc, ih, hsame]

/-- C10: in the QueryTokenValidity handler, a success row is appended exactly
when the address is valid, queryTokenValidity returned no error and IsToken
is truthy; a no-error falsy IsToken is routed through handleAPIErrors like a
failure; and the appended row has status success with the isToken flag true
precisely when Number(IsToken) is 1. -/
theorem handleQueryTokenValidity_success_routing (valid : Bool)
    (res : QueryTokenValidityResult) (addr : String)
    (prev : List TransactionResult) :
    ((∃ rows, handleQueryTokenValidity valid res addr prev =
        HandlerOutcome.success rows) ↔
      (valid = true ∧ res.err = none ∧ jsTruthyNat res.IsToken = true)) ∧
    (valid = true → res.err = none → jsTruthyNat res.IsToken = false →
      handleQueryTokenValidity valid res addr prev =
        HandlerOutcome.apiError res.err res.transactionHash addr) ∧
    (∀ rows, handleQueryTokenValidity valid res addr prev =
        HandlerOutcome.success rows →
      rows = prev ++
        [{ status := "success"
           isToken := jsNumberEqOne res.IsToken
           txHash := res.transactionHash
           tokenAddress := addr }]) ∧
    (jsNumberEqOne res.IsToken = true ↔ res.IsToken = some 1) := by
  obtain ⟨istok, th, err⟩ := res
  refine ⟨?_, ?_, ?_, ?_⟩
  · cases valid <;> cases err <;>
      cases htr : jsTruthyNat istok <;>
      simp [handleQueryTokenValidity, htr]
  · intro hv herr hfalsy
    subst hv
    subst herr
    simp [handleQueryTokenValidity, hfalsy]
  · intro rows hrows
    cases valid
    · simp [handleQueryTokenValidity] at hrows
    · cases err
      · cases htr : jsTruthyNat istok
        · simp [handleQueryTokenValidity, htr] at hrows
        · exact (by simpa [handleQueryTokenValidity, htr] using hrows :
            prev ++ _ = rows).symm
      · simp [handleQueryTokenValidity] at hrows
  · cases istok with
    | none => simp [jsNumberEqOne]
    | some n => simp [jsNumberEqOne]
